import Mathlib

/-!
# Verification of the shipsy-task-management scoring and query engine

Shallow embedding of the Task model (`backend/src/models/Task.js`, shipped inside
`backend/tests/auth.test.js` in this snapshot) and of the sample-task seeding in
`backend/src/utils/database.js`, together with proofs of the specification claims.

Conventions of the embedding:
* JavaScript strings are Lean `String`s; timestamps are integer milliseconds (`Int`);
  optional / nullable values are `Option`s.
* JavaScript object-literal lookup with `|| default` becomes a total table function.
* `moment(due).diff(now, 'days')` truncates the fractional day difference toward
  zero, which on integer milliseconds is `Int.div` (T-division).
* `Math.ceil(x / d)` on an integer `x` and positive `d` is `-Int.fdiv (-x) d`.
* Fallible operations return `Except String`.
-/

/-- Milliseconds per day, the divisor used by both day-difference computations. -/
def msPerDay : Int := 86400000

/-- `moment(due).diff(now, 'days')` from `Task.calculatePriorityScore`:
the millisecond difference divided by a day, truncated toward zero. -/
def momentDiffDays (due now : Int) : Int :=
  Int.tdiv (due - now) msPerDay

/-- `Math.ceil((dueDate - now) / 86400000)` from the sample-task seeding in
`database.js`: the millisecond difference divided by a day, rounded up. -/
def ceilDiffDays (due now : Int) : Int :=
  -(Int.fdiv (now - due) msPerDay)

/-- The `priorityWeights` table of `Task.calculatePriorityScore`
(`priorityWeights[this.priority] || 25`; no weight is falsy, so the `||`
only handles unrecognized priorities). -/
def priorityWeight (p : String) : Int :=
  if p = "LOW" then 10
  else if p = "MEDIUM" then 25
  else if p = "HIGH" then 40
  else if p = "URGENT" then 60
  else 25

/-- The due-date bucket chain of `Task.calculatePriorityScore`, applied to the
(already rounded) whole-day difference `d`. -/
def dueDateBonus (d : Int) : Int :=
  if d < 0 then 40
  else if d ≤ 1 then 35
  else if d ≤ 3 then 25
  else if d ≤ 7 then 15
  else 5

/-- `Task.calculatePriorityScore`: base priority weight, plus 20 when urgent,
plus the due-date bucket on `moment`'s truncating day difference when a due
date is present, clamped by `Math.min(score, 100)`. -/
def calculatePriorityScore (priority : String) (is_urgent : Bool)
    (due_date : Option Int) (now : Int) : Int :=
  let score := priorityWeight priority + (if is_urgent then 20 else 0)
  let score := match due_date with
    | none => score
    | some due => score + dueDateBonus (momentDiffDays due now)
  min score 100

/-- `Task.calculateCompletionPercentage`: the `statusPercentages` table with
default 0 (`statusPercentages[this.status] || 0`; the listed zero entries and
the unrecognized case coincide at 0). -/
def calculateCompletionPercentage (status : String) : Int :=
  if status = "TODO" then 0
  else if status = "IN_PROGRESS" then 50
  else if status = "COMPLETED" then 100
  else if status = "CANCELLED" then 0
  else 0

/-- The insertion-time seeding computation of `priority_score` in
`initializeDatabase` (`database.js` lines 184–198): same weight table, same
urgency bonus, same bucket constants, but the day difference is bucketed by
`Math.ceil` instead of `moment`'s truncating diff. -/
def seedPriorityScore (priority : String) (is_urgent : Bool)
    (due_date : Option Int) (now : Int) : Int :=
  let score := priorityWeight priority + (if is_urgent then 20 else 0)
  let score := match due_date with
    | none => score
    | some due => score + dueDateBonus (ceilDiffDays due now)
  min score 100

/-- The specification's base-weight table, written from the spec's words
(§4.1 rule 1: LOW=10, MEDIUM=25, HIGH=40, URGENT=60, unrecognized 25). -/
def specBaseWeight (p : String) : Int :=
  if p = "LOW" then 10
  else if p = "MEDIUM" then 25
  else if p = "HIGH" then 40
  else if p = "URGENT" then 60
  else 25

/-- The specification's due-date contribution, written from the spec's words
(§4.1 rule 3) as disjoint integer intervals of the whole-day difference `d`. -/
def specDueBonus (d : Int) : Int :=
  if d < 0 then 40
  else if 0 ≤ d ∧ d ≤ 1 then 35
  else if 2 ≤ d ∧ d ≤ 3 then 25
  else if 4 ≤ d ∧ d ≤ 7 then 15
  else 5

/-- The specification's priority score (§4.1 rules 1–4), as a function of the
priority, the urgency flag, and the optional whole-day difference `d`. -/
def specPriorityScore (p : String) (u : Bool) (d : Option Int) : Int :=
  min (specBaseWeight p + (if u then 20 else 0) +
    (match d with | none => 0 | some d => specDueBonus d)) 100

/-- C1: for every priority string, urgency flag, optional due date and current
time, `Task.calculatePriorityScore` equals the specification's additive score:
base weight by priority (LOW=10, MEDIUM=25, HIGH=40, URGENT=60, unrecognized
25), plus 20 exactly when urgent, plus the due-date bucket (+40 if d < 0,
+35 if 0 ≤ d ≤ 1, +25 if 2 ≤ d ≤ 3, +15 if 4 ≤ d ≤ 7, +5 if d > 7) of the
whole-day difference when a due date is present, clamped to at most 100. -/
theorem calculatePriorityScore_matches_spec (priority : String) (is_urgent : Bool)
    (now : Int) :
    calculatePriorityScore priority is_urgent none now =
      specPriorityScore priority is_urgent none ∧
    ∀ due : Int, calculatePriorityScore priority is_urgent (some due) now =
      specPriorityScore priority is_urgent (some (momentDiffDays due now)) := by
  constructor
  · simp only [calculatePriorityScore, specPriorityScore, priorityWeight, specBaseWeight]
    omega
  · intro due
    simp only [calculatePriorityScore, specPriorityScore, priorityWeight, specBaseWeight,
      dueDateBonus, specDueBonus]
    generalize momentDiffDays due now = d
    split_ifs <;> omega

/-- C2: `Task.calculateCompletionPercentage` maps TODO to 0, IN_PROGRESS to 50,
COMPLETED to 100, CANCELLED to 0, and every other status string to 0; as a
total Lean function it never fails. -/
theorem calculateCompletionPercentage_table :
    calculateCompletionPercentage "TODO" = 0 ∧
    calculateCompletionPercentage "IN_PROGRESS" = 50 ∧
    calculateCompletionPercentage "COMPLETED" = 100 ∧
    calculateCompletionPercentage "CANCELLED" = 0 ∧
    ∀ s : String, s ∉ (["TODO", "IN_PROGRESS", "COMPLETED", "CANCELLED"] : List String) →
      calculateCompletionPercentage s = 0 := by
  refine ⟨rfl, rfl, rfl, rfl, ?_⟩
  intro s hs
  simp only [List.mem_cons, List.not_mem_nil, or_false] at hs
  push_neg at hs
  obtain ⟨h1, h2, h3, h4⟩ := hs
  simp [calculateCompletionPercentage, h1, h2, h3, h4]

/-- Witness for C2: the unrecognized status "ARCHIVED" is outside the table and
maps to 0. -/
theorem calculateCompletionPercentage_table_witness :
    calculateCompletionPercentage "ARCHIVED" = 0 :=
  calculateCompletionPercentage_table.2.2.2.2 "ARCHIVED" (by decide)

/-- C8: the seeding path (`Math.ceil` day difference) and the model path
(`moment` truncating day difference) disagree on a concrete input: a MEDIUM,
non-urgent task due one and a half days from now (due = 129600000 ms,
now = 0) gets 50 from the seeding computation (ceil gives 2 days, +25) but
60 from `Task.calculatePriorityScore` (truncation gives 1 day, +35). -/
theorem seed_and_model_priorityScore_disagree :
    seedPriorityScore "MEDIUM" false (some 129600000) 0 = 50 ∧
    calculatePriorityScore "MEDIUM" false (some 129600000) 0 = 60 ∧
    seedPriorityScore "MEDIUM" false (some 129600000) 0 ≠
      calculatePriorityScore "MEDIUM" false (some 129600000) 0 := by
  refine ⟨by decide, by decide, by decide⟩

/-! ## Query building (`Task.findAll`) -/

/-- A JavaScript value handed to `findAll` in a sort slot: either a string or
some other (non-string, non-undefined) value such as `null` or a number.
An absent slot is `Option.none` at the use site. -/
inductive JsVal where
  | str (s : String)
  | nonstr
deriving DecidableEq, Repr

/-- The options object accepted by `Task.findAll`, with the same defaults the
destructuring applies when a field is `undefined` (`none`). -/
structure FindOptions where
  user_id : Option String := none
  page : Int := 1
  limit : Int := 10
  status : Option String := none
  priority : Option String := none
  is_urgent : Option Bool := none
  search : Option String := none
  sort_by : Option JsVal := none
  sort_order : Option JsVal := none
deriving Repr

/-- One entry of the `WHERE` condition list built by `Task.findAll`, paired
with its bound parameter. -/
inductive Cond where
  | userEq (uid : String)
  | statusEq (s : String)
  | priorityEq (p : String)
  | urgentEq (b : Bool)
  | searchLike (s : String)
deriving DecidableEq, Repr

/-- JavaScript truthiness of an optional string: absent, `null`-like and the
empty string are falsy. -/
def truthyStr (o : Option String) : Bool :=
  match o with
  | none => false
  | some s => s ≠ ""

/-- The `whereConditions` list built by `Task.findAll`, in push order:
`user_id`, `status` and `priority` are added when truthy, `is_urgent` when
not `undefined`, and `search` (a `LIKE` on title or description) when truthy. -/
def buildConditions (o : FindOptions) : List Cond :=
  (match o.user_id with
    | some u => if u ≠ "" then [Cond.userEq u] else []
    | none => []) ++
  (match o.status with
    | some s => if s ≠ "" then [Cond.statusEq s] else []
    | none => []) ++
  (match o.priority with
    | some p => if p ≠ "" then [Cond.priorityEq p] else []
    | none => []) ++
  (match o.is_urgent with
    | some b => [Cond.urgentEq b]
    | none => []) ++
  (match o.search with
    | some s => if s ≠ "" then [Cond.searchLike s] else []
    | none => [])

/-- JavaScript's `String.prototype.toUpperCase` (ASCII range, which covers the
sort-order keywords): uppercase every character. -/
def jsToUpper (s : String) : String :=
  String.mk (s.data.map Char.toUpper)

/-- The sort-field allow-list of `Task.findAll`. -/
def allowedSortFields : List String :=
  ["title", "status", "priority", "due_date", "created_at", "updated_at",
   "completion_percentage", "priority_score"]

/-- The query plan `Task.findAll` hands to the store: the condition list, the
validated `ORDER BY` field and direction (also reported back as the `sorting`
metadata), and `LIMIT`/`OFFSET`. -/
structure QueryPlan where
  conditions : List Cond
  sortBy : String
  sortOrder : String
  limit : Int
  offset : Int
deriving DecidableEq, Repr

/-- The pure query-building part of `Task.findAll`: destructure options with
defaults, push the `WHERE` conditions, validate the sort parameters
(`allowedSortFields.includes(sort_by) ? sort_by : 'created_at'` — a non-string
`sort_by` is simply not in the list — and
`allowedSortOrders.includes(sort_order.toUpperCase()) ? ... : 'DESC'`, which
throws a `TypeError` when `sort_order` is a non-string value), and compute
`offset = (page - 1) * limit`. -/
def findAllPlan (o : FindOptions) : Except String QueryPlan :=
  let conditions := buildConditions o
  let validSortBy :=
    match o.sort_by with
    | some (JsVal.str s) => if allowedSortFields.contains s then s else "created_at"
    | some JsVal.nonstr => "created_at"
    | none => "created_at"
  match o.sort_order with
  | some JsVal.nonstr =>
      Except.error "TypeError: sort_order.toUpperCase is not a function"
  | some (JsVal.str s) =>
      let up := jsToUpper s
      Except.ok { conditions := conditions, sortBy := validSortBy,
                  sortOrder := if ["ASC", "DESC"].contains up then up else "DESC",
                  limit := o.limit, offset := (o.page - 1) * o.limit }
  | none =>
      Except.ok { conditions := conditions, sortBy := validSortBy,
                  sortOrder := "DESC",
                  limit := o.limit, offset := (o.page - 1) * o.limit }

/-- C3 counterexample: calling `findAll` with an options object that carries no
`user_id` produces a query whose condition list is empty — in particular it
contains no owner-equality filter, contradicting "always applied". -/
theorem findAllPlan_no_owner_filter_counterexample :
    (findAllPlan {}).map QueryPlan.conditions = Except.ok [] := by
  rfl

/-- Any successfully produced plan carries exactly the built `WHERE` list. -/
theorem findAllPlan_ok_conditions (o : FindOptions) (p : QueryPlan)
    (hplan : findAllPlan o = Except.ok p) : p.conditions = buildConditions o := by
  unfold findAllPlan at hplan
  cases ho : o.sort_order with
  | none =>
      rw [ho] at hplan
      cases hplan
      rfl
  | some v =>
      cases v with
      | str s =>
          rw [ho] at hplan
          cases hplan
          rfl
      | nonstr =>
          rw [ho] at hplan
          cases hplan

/-- C3 (amended): whenever `options.user_id` is present and truthy (a nonempty
string), every successfully produced query plan's condition list contains the
owner-equality filter on that `user_id`, regardless of the other options. -/
theorem findAllPlan_owner_filter (o : FindOptions) (p : QueryPlan) (u : String)
    (hplan : findAllPlan o = Except.ok p) (hu : o.user_id = some u) (hne : u ≠ "") :
    Cond.userEq u ∈ p.conditions := by
  rw [findAllPlan_ok_conditions o p hplan]
  unfold buildConditions
  rw [hu]
  simp [hne]

/-- Witness for C3 (amended): an options object with `user_id = "u-1"` and an
unrelated filter yields a plan whose conditions contain the owner filter. -/
theorem findAllPlan_owner_filter_witness :
    Cond.userEq "u-1" ∈
      (QueryPlan.mk [Cond.userEq "u-1", Cond.statusEq "TODO"] "created_at" "DESC" 10 0).conditions :=
  findAllPlan_owner_filter
    { user_id := some "u-1", status := some "TODO" }
    (QueryPlan.mk [Cond.userEq "u-1", Cond.statusEq "TODO"] "created_at" "DESC" 10 0)
    "u-1" (by rfl) (by rfl) (by decide)

/-- The effective sort field according to the spec's words: the supplied
`sort_by` when it is an allow-listed string, `created_at` otherwise. -/
def specSortBy (sb : Option JsVal) : String :=
  match sb with
  | some (JsVal.str s) => if s ∈ allowedSortFields then s else "created_at"
  | some JsVal.nonstr => "created_at"
  | none => "created_at"

/-- The effective sort order according to the spec's words: the uppercase of
the supplied string when that is ASC or DESC case-insensitively, DESC
otherwise. -/
def specSortOrder (s : String) : String :=
  if jsToUpper s = "ASC" ∨ jsToUpper s = "DESC" then jsToUpper s else "DESC"

/-- C4 counterexample: a non-string `sort_order` (e.g. `null` or a number)
makes `Task.findAll` throw a `TypeError` at `sort_order.toUpperCase()` instead
of falling back, so the ordering is not computed without throwing. -/
theorem findAllPlan_nonstring_sort_order_throws :
    findAllPlan { sort_order := some JsVal.nonstr } =
      Except.error "TypeError: sort_order.toUpperCase is not a function" := by
  rfl

/-- C4 (amended): for every options value whose `sort_order` is absent or a
string (non-string `sort_order` values throw, see the counterexample),
`Task.findAll` computes its effective ordering without failing: the effective
sort field is `sort_by` when that is in the allow-list and `created_at`
otherwise (a non-listed or non-string field never reaches the query), the
effective sort order is the uppercase of `sort_order` when that is ASC or DESC
case-insensitively and DESC otherwise, and the returned sorting metadata
(`sortBy`/`sortOrder` of the plan) reports these effective values. -/
theorem findAllPlan_sort_validation (o : FindOptions) :
    (o.sort_order = none →
      (findAllPlan o).map (fun p => (p.sortBy, p.sortOrder)) =
        Except.ok (specSortBy o.sort_by, "DESC")) ∧
    (∀ s : String, o.sort_order = some (JsVal.str s) →
      (findAllPlan o).map (fun p => (p.sortBy, p.sortOrder)) =
        Except.ok (specSortBy o.sort_by, specSortOrder s)) := by
  constructor
  · intro hso
    simp only [findAllPlan, hso, Except.map]
    rcases o.sort_by with _ | v
    · rfl
    · cases v with
      | str s => simp [specSortBy]
      | nonstr => rfl
  · intro s hso
    simp only [findAllPlan, hso, Except.map]
    rcases o.sort_by with _ | v
    · simp [specSortBy, specSortOrder, List.contains_cons]
    · cases v with
      | str t => simp [specSortBy, specSortOrder, List.contains_cons]
      | nonstr => simp [specSortBy, specSortOrder, List.contains_cons]

/-- Witness for C4 (amended): options with the non-listed field
`"malicious_field"` and lowercase `"asc"` yield effective sorting
`created_at`/`ASC` without failing. -/
theorem findAllPlan_sort_validation_witness :
    (findAllPlan { sort_by := some (JsVal.str "malicious_field"),
                   sort_order := some (JsVal.str "asc") }).map
        (fun p => (p.sortBy, p.sortOrder)) =
      Except.ok ("created_at", "ASC") := by
  have h := (findAllPlan_sort_validation
    { sort_by := some (JsVal.str "malicious_field"),
      sort_order := some (JsVal.str "asc") }).2 "asc" (by rfl)
  rw [h]
  rfl

/-! ## Task records and the search condition -/

/-- A row of the `tasks` table (and equally an in-memory `Task` instance whose
derived fields have been computed). -/
structure TaskRecord where
  id : String
  title : String
  description : Option String
  status : String
  priority : String
  is_urgent : Bool
  due_date : Option Int
  completion_percentage : Int
  priority_score : Int
  user_id : String
  created_at : Int
  updated_at : Int
deriving DecidableEq, Repr

/-- SQLite's default case-insensitive (ASCII) character comparison used by
`LIKE`. -/
def ciEq (a b : Char) : Bool :=
  a.toLower == b.toLower

/-- SQLite `LIKE` pattern matching over character lists: `%` matches any
sequence, `_` matches any single character, and any other pattern character
matches case-insensitively. -/
def likeMatch : List Char → List Char → Bool
  | [], s => s.isEmpty
  | p :: ps, s =>
    if p = '%' then
      likeMatch ps s ||
        (match s with
         | [] => false
         | _ :: s' => likeMatch (p :: ps) s')
    else
      match s with
      | [] => false
      | c :: s' => (if p = '_' then true else ciEq p c) && likeMatch ps s'
termination_by p s => (p.length, s.length)

/-- `col LIKE '%' || search || '%'`: the pattern `Task.findAll` builds with
`params.push(%search%)`. -/
def likeContains (search text : String) : Bool :=
  likeMatch ('%' :: (search.data ++ ['%'])) text.data

/-- The characters of a string, lowercased (ASCII). -/
def lowerChars (s : String) : List Char :=
  s.data.map Char.toLower

/-- The spec's reading of the search filter: the search string occurs,
compared case-insensitively, as a substring (contiguous infix) of the text. -/
def ciSubstring (needle hay : String) : Prop :=
  lowerChars needle <:+: lowerChars hay

instance (needle hay : String) : Decidable (ciSubstring needle hay) := by
  unfold ciSubstring
  infer_instance

/-- Whether one `WHERE` condition accepts a task row. A `NULL` description
makes `description LIKE ...` non-matching in SQL. -/
def condHolds (c : Cond) (t : TaskRecord) : Bool :=
  match c with
  | Cond.userEq u => t.user_id == u
  | Cond.statusEq s => t.status == s
  | Cond.priorityEq p => t.priority == p
  | Cond.urgentEq b => t.is_urgent == b
  | Cond.searchLike s =>
      likeContains s t.title ||
        (match t.description with
         | some d => likeContains s d
         | none => false)

theorem likeMatch_nil (s : List Char) : likeMatch [] s = s.isEmpty := by
  rw [likeMatch]

theorem likeMatch_pct_nil (ps : List Char) :
    likeMatch ('%' :: ps) [] = likeMatch ps [] := by
  rw [likeMatch]
  simp

theorem likeMatch_pct_cons (ps : List Char) (c : Char) (s : List Char) :
    likeMatch ('%' :: ps) (c :: s) = (likeMatch ps (c :: s) || likeMatch ('%' :: ps) s) := by
  rw [likeMatch]
  simp

theorem likeMatch_char_nil (p : Char) (ps : List Char) (h : p ≠ '%') :
    likeMatch (p :: ps) [] = false := by
  rw [likeMatch]
  simp [h]

theorem likeMatch_char_cons (p : Char) (ps : List Char) (c : Char) (s : List Char)
    (h : p ≠ '%') :
    likeMatch (p :: ps) (c :: s) =
      ((if p = '_' then true else ciEq p c) && likeMatch ps s) := by
  rw [likeMatch]
  simp [h]

/-- A leading `%` matches exactly when the rest of the pattern matches some
suffix of the text. -/
theorem likeMatch_pct_iff (ps s : List Char) :
    likeMatch ('%' :: ps) s = true ↔ ∃ t, t <:+ s ∧ likeMatch ps t = true := by
  induction s with
  | nil =>
      rw [likeMatch_pct_nil]
      constructor
      · intro h
        exact ⟨[], List.nil_suffix, h⟩
      · rintro ⟨t, ht, hm⟩
        rw [List.suffix_nil] at ht
        rw [ht] at hm
        exact hm
  | cons c s ih =>
      rw [likeMatch_pct_cons, Bool.or_eq_true, ih]
      constructor
      · rintro (h | ⟨t, ht, hm⟩)
        · exact ⟨c :: s, List.suffix_refl _, h⟩
        · exact ⟨t, ht.trans (List.suffix_cons c s), hm⟩
      · rintro ⟨t, ht, hm⟩
        rcases List.suffix_cons_iff.mp ht with h | h
        · subst h
          exact Or.inl hm
        · exact Or.inr ⟨t, h, hm⟩

/-- The pattern `%` alone matches every text. -/
theorem likeMatch_pct_only (s : List Char) : likeMatch ['%'] s = true := by
  induction s with
  | nil => rw [likeMatch_pct_nil, likeMatch_nil]; rfl
  | cons c s ih =>
      rw [likeMatch_pct_cons, ih]
      simp

/-- For a wildcard-free pattern `p`, `p ++ ['%']` matches `s` exactly when `p`
is, case-insensitively, a leading piece of `s`. -/
theorem likeMatch_append_pct_iff (p : List Char)
    (hp : ∀ c ∈ p, c ≠ '%' ∧ c ≠ '_') (s : List Char) :
    likeMatch (p ++ ['%']) s = true ↔
      p.map Char.toLower <+: s.map Char.toLower := by
  induction p generalizing s with
  | nil =>
      simp only [List.nil_append, List.map_nil]
      rw [likeMatch_pct_only]
      simp [ List.nil_prefix]
  | cons a p ih =>
      have ha := hp a (List.mem_cons_self a p)
      cases s with
      | nil =>
          rw [List.cons_append, likeMatch_char_nil _ _ ha.1]
          simp
      | cons c s =>
          rw [List.cons_append, likeMatch_char_cons _ _ _ _ ha.1, if_neg ha.2]
          rw [Bool.and_eq_true, ih (fun c hc => hp c (List.mem_cons_of_mem a hc))]
          simp only [List.map_cons, List.cons_prefix_cons]
          unfold ciEq
          rw [beq_iff_eq]

/-- Completeness for arbitrary patterns: if `p` is, case-insensitively, a
leading piece of `t`, then `p ++ ['%']` matches `t` (wildcards in `p` also
match their own literal occurrence). -/
theorem likeMatch_append_pct_of_ci_prefix (p : List Char) :
    ∀ t : List Char, p.map Char.toLower <+: t.map Char.toLower →
      likeMatch (p ++ ['%']) t = true := by
  induction p with
  | nil => intro t _; rw [List.nil_append]; exact likeMatch_pct_only t
  | cons a p ih =>
      intro t h
      cases t with
      | nil =>
          rw [List.map_cons, List.map_nil, List.prefix_nil] at h
          cases h
      | cons c t =>
          rw [List.map_cons, List.map_cons, List.cons_prefix_cons] at h
          rw [List.cons_append]
          by_cases hpc : a = '%'
          · subst hpc
            rw [likeMatch_pct_cons, Bool.or_eq_true]
            exact Or.inr ((likeMatch_pct_iff _ _).mpr ⟨t, List.suffix_refl t, ih t h.2⟩)
          · rw [likeMatch_char_cons _ _ _ _ hpc, Bool.and_eq_true]
            refine ⟨?_, ih t h.2⟩
            by_cases hu : a = '_'
            · rw [if_pos hu]
            · rw [if_neg hu]
              unfold ciEq
              rw [beq_iff_eq]
              exact h.1

/-- Every suffix of a mapped list is the image of a suffix. -/
theorem suffix_of_map_suffix {f : Char → Char} {t₀ s : List Char}
    (h : t₀ <:+ s.map f) : ∃ t, t <:+ s ∧ t₀ = t.map f := by
  induction s generalizing t₀ with
  | nil =>
      rw [List.map_nil, List.suffix_nil] at h
      exact ⟨[], List.suffix_refl [], by rw [h, List.map_nil]⟩
  | cons c s ih =>
      rw [List.map_cons] at h
      rcases List.suffix_cons_iff.mp h with h | h
      · exact ⟨c :: s, List.suffix_refl _, by rw [h, List.map_cons]⟩
      · obtain ⟨t, ht, rfl⟩ := ih h
        exact ⟨t, ht.trans (List.suffix_cons c s), rfl⟩

/-- For a wildcard-free search pattern, the full `%p%` pattern matches `s`
exactly when `p` occurs, case-insensitively, as a contiguous substring. -/
theorem likeMatch_wrap_iff (p : List Char)
    (hp : ∀ c ∈ p, c ≠ '%' ∧ c ≠ '_') (s : List Char) :
    likeMatch ('%' :: (p ++ ['%'])) s = true ↔
      p.map Char.toLower <:+: s.map Char.toLower := by
  rw [likeMatch_pct_iff]
  constructor
  · rintro ⟨t, ht, hm⟩
    rw [ List.infix_iff_prefix_suffix]
    exact ⟨t.map Char.toLower, (likeMatch_append_pct_iff p hp t).mp hm, ht.map Char.toLower⟩
  · intro h
    rw [ List.infix_iff_prefix_suffix] at h
    obtain ⟨t₀, hpt, hts⟩ := h
    obtain ⟨t, hts', rfl⟩ := suffix_of_map_suffix hts
    exact ⟨t, hts', (likeMatch_append_pct_iff p hp t).mpr hpt⟩

/-- Completeness half for arbitrary search patterns: a case-insensitive
substring occurrence always produces a `%p%` match. -/
theorem likeMatch_wrap_of_ci_occurs (p s : List Char)
    (h : p.map Char.toLower <:+: s.map Char.toLower) :
    likeMatch ('%' :: (p ++ ['%'])) s = true := by
  rw [ List.infix_iff_prefix_suffix] at h
  obtain ⟨t₀, hpt, hts⟩ := h
  obtain ⟨t, hts', rfl⟩ := suffix_of_map_suffix hts
  exact (likeMatch_pct_iff _ _).mpr ⟨t, hts', likeMatch_append_pct_of_ci_prefix p t hpt⟩

/-- C7 counterexample: for the search string `"a_c"` (which contains the LIKE
wildcard `_`) and a task titled `"axc"` with no description, the search
condition of `Task.findAll` accepts the task although `"a_c"` does not occur
case-insensitively as a substring of the title (nor of the absent
description): the `_` matched the letter `x`. -/
theorem searchCondition_counterexample :
    condHolds (Cond.searchLike "a_c")
      (TaskRecord.mk "t-1" "axc" none "TODO" "MEDIUM" false none 0 25 "u-1" 0 0) = true ∧
    ¬ ciSubstring "a_c" "axc" ∧
    (TaskRecord.mk "t-1" "axc" none "TODO" "MEDIUM" false none 0 25 "u-1" 0 0).description
      = none := by
  refine ⟨?_, by decide, rfl⟩
  simp [condHolds, likeContains, likeMatch, ciEq]

/-- C7 (amended): for every search string made only of non-wildcard characters
(no `%`, no `_`), a task satisfies the search condition of `Task.findAll` if
and only if the search string occurs, compared case-insensitively, as a
substring of the task's title or of its (present) description; for arbitrary
search strings the substring occurrence still implies a match, while the
converse can fail on wildcards (see the counterexample). -/
theorem searchCondition_iff_ciSubstring (s : String) (t : TaskRecord) :
    ((∀ c ∈ s.data, c ≠ '%' ∧ c ≠ '_') →
      (condHolds (Cond.searchLike s) t = true ↔
        (ciSubstring s t.title ∨ ∃ d, t.description = some d ∧ ciSubstring s d))) ∧
    ((ciSubstring s t.title ∨ ∃ d, t.description = some d ∧ ciSubstring s d) →
      condHolds (Cond.searchLike s) t = true) := by
  constructor
  · intro hs
    cases hd : t.description with
    | none =>
        simp only [condHolds, likeContains, Bool.or_eq_true, hd]
        rw [likeMatch_wrap_iff s.data hs t.title.data]
        unfold ciSubstring lowerChars
        simp
    | some d =>
        simp only [condHolds, likeContains, Bool.or_eq_true, hd]
        rw [likeMatch_wrap_iff s.data hs t.title.data,
            likeMatch_wrap_iff s.data hs d.data]
        unfold ciSubstring lowerChars
        simp
  · rintro (h | ⟨d, hd, h⟩)
    · simp only [condHolds, likeContains, Bool.or_eq_true]
      exact Or.inl (likeMatch_wrap_of_ci_occurs s.data t.title.data h)
    · simp only [condHolds, likeContains, Bool.or_eq_true, hd]
      exact Or.inr (likeMatch_wrap_of_ci_occurs s.data d.data h)

/-- Witness for C7 (amended): the wildcard-free search "task" matches a task
titled "My TASK list" case-insensitively. -/
theorem searchCondition_iff_ciSubstring_witness :
    condHolds (Cond.searchLike "task")
      (TaskRecord.mk "t-2" "My TASK list" none "TODO" "MEDIUM" false none 0 25 "u-1" 0 0)
      = true :=
  ((searchCondition_iff_ciSubstring "task"
      (TaskRecord.mk "t-2" "My TASK list" none "TODO" "MEDIUM" false none 0 25 "u-1" 0 0)).1
    (by decide)).mpr (Or.inl (by decide))

/-! ## Store operations (`Task.create`, `Task.update`) -/

/-- JavaScript `value || default` on an optional string: absent, `null`-like
and the empty string all fall back. -/
def strOr (o : Option String) (d : String) : String :=
  match o with
  | some s => if s = "" then d else s
  | none => d

/-- The `taskData` argument of `Task.create` (fields the constructor reads;
derived fields are overwritten by `create` before the insert). -/
structure TaskData where
  id : Option String := none
  title : Option String := none
  description : Option String := none
  status : Option String := none
  priority : Option String := none
  is_urgent : Option Bool := none
  due_date : Option Int := none
  user_id : Option String := none
deriving Repr

/-- The `updateData` payload of `Task.update`: any subset of the record's
fields may be present (`Object.assign` copies present fields verbatim, with
no defaulting). An explicit `null` for description or due date is
`some none`. -/
structure UpdateData where
  id : Option String := none
  title : Option String := none
  description : Option (Option String) := none
  status : Option String := none
  priority : Option String := none
  is_urgent : Option Bool := none
  due_date : Option (Option Int) := none
  completion_percentage : Option Int := none
  priority_score : Option Int := none
  user_id : Option String := none
  created_at : Option Int := none
  updated_at : Option Int := none
deriving Repr

/-- `Task.create`: reject a missing/empty title or user_id, build the instance
with the constructor's `||` defaults, compute both derived fields, and insert
the row (`created_at`/`updated_at` are the store's `CURRENT_TIMESTAMP`,
modelled as `now`; `uuidv4()` is the `freshId` parameter). -/
def create (taskData : TaskData) (freshId : String) (now : Int)
    (store : List TaskRecord) : Except String (List TaskRecord) :=
  if truthyStr taskData.title && truthyStr taskData.user_id then
    let status := strOr taskData.status "TODO"
    let priority := strOr taskData.priority "MEDIUM"
    let is_urgent := taskData.is_urgent.getD false
    let due_date := taskData.due_date
    let t : TaskRecord := {
      id := strOr taskData.id freshId,
      title := taskData.title.getD "",
      description := taskData.description,
      status := status,
      priority := priority,
      is_urgent := is_urgent,
      due_date := due_date,
      completion_percentage := calculateCompletionPercentage status,
      priority_score := calculatePriorityScore priority is_urgent due_date now,
      user_id := taskData.user_id.getD "",
      created_at := now,
      updated_at := now }
    Except.ok (t :: store)
  else
    Except.error "Title and user_id are required"

/-- `Object.assign(task, updateData)`: every present payload field overwrites
the in-memory instance, including id / user_id / created_at and the cached
derived fields. -/
def mergeUpdate (t : TaskRecord) (u : UpdateData) : TaskRecord :=
  { id := u.id.getD t.id,
    title := u.title.getD t.title,
    description := u.description.getD t.description,
    status := u.status.getD t.status,
    priority := u.priority.getD t.priority,
    is_urgent := u.is_urgent.getD t.is_urgent,
    due_date := u.due_date.getD t.due_date,
    completion_percentage := u.completion_percentage.getD t.completion_percentage,
    priority_score := u.priority_score.getD t.priority_score,
    user_id := u.user_id.getD t.user_id,
    created_at := u.created_at.getD t.created_at,
    updated_at := u.updated_at.getD t.updated_at }

/-- `Task.update`: find the task by id (error when absent), merge the payload
in memory, recompute both derived fields, then run the SQL `UPDATE`, whose
`SET` list covers title, description, status, priority, is_urgent, due_date,
completion_percentage, priority_score and `updated_at = CURRENT_TIMESTAMP` —
and nothing else — on every row whose id matches. -/
def update (id : String) (updateData : UpdateData) (now : Int)
    (store : List TaskRecord) : Except String (List TaskRecord) :=
  match store.find? (fun r => r.id == id) with
  | none => Except.error "Task not found"
  | some t =>
      let m := mergeUpdate t updateData
      let cp := calculateCompletionPercentage m.status
      let ps := calculatePriorityScore m.priority m.is_urgent m.due_date now
      Except.ok (store.map (fun r =>
        if r.id == id then
          { r with title := m.title, description := m.description, status := m.status,
                   priority := m.priority, is_urgent := m.is_urgent, due_date := m.due_date,
                   completion_percentage := cp, priority_score := ps, updated_at := now }
        else r))

/-- C5: after every successful `Task.create` the inserted row's
`completion_percentage` is the status mapping of its stored status and its
`priority_score` is the scoring function of its stored priority / urgency /
due date at the write's clock; after every successful `Task.update` the same
holds for every row the update touched. The cached derived values are thus
consistent with the record's other fields at the moment of last write, for
every sequence of create/update operations. -/
theorem derived_fields_consistent :
    (∀ (td : TaskData) (freshId : String) (now : Int) (store store' : List TaskRecord),
      create td freshId now store = Except.ok store' →
      ∃ r, store' = r :: store ∧
        r.completion_percentage = calculateCompletionPercentage r.status ∧
        r.priority_score = calculatePriorityScore r.priority r.is_urgent r.due_date now) ∧
    (∀ (id : String) (ud : UpdateData) (now : Int) (store store' : List TaskRecord),
      update id ud now store = Except.ok store' →
      ∀ r ∈ store', r.id = id →
        r.completion_percentage = calculateCompletionPercentage r.status ∧
        r.priority_score = calculatePriorityScore r.priority r.is_urgent r.due_date now) := by
  constructor
  · intro td freshId now store store' h
    unfold create at h
    split at h
    · cases h
      exact ⟨_, rfl, rfl, rfl⟩
    · cases h
  · intro id ud now store store' h r hr hid
    unfold update at h
    cases hf : store.find? (fun r => r.id == id) with
    | none =>
        rw [hf] at h
        cases h
    | some t =>
        rw [hf] at h
        cases h
        obtain ⟨a, ha, rfl⟩ := List.mem_map.mp hr
        by_cases hai : (a.id == id) = true
        · rw [if_pos hai]
          exact ⟨rfl, rfl⟩
        · rw [if_neg hai] at hid
          exact absurd hid (by simpa using hai)

/-- Witness for C5: creating a task titled "Write spec" for user "u-1" at
clock 0 inserts a row whose derived fields match the status mapping and the
scoring function. -/
theorem derived_fields_consistent_witness :
    ∃ r, ([⟨"id-9", "Write spec", none, "TODO", "MEDIUM", false, none, 0, 25, "u-1", 0, 0⟩]
        : List TaskRecord) = r :: [] ∧
      r.completion_percentage = calculateCompletionPercentage r.status ∧
      r.priority_score = calculatePriorityScore r.priority r.is_urgent r.due_date 0 :=
  derived_fields_consistent.1 { title := some "Write spec", user_id := some "u-1" }
    "id-9" 0 []
    [⟨"id-9", "Write spec", none, "TODO", "MEDIUM", false, none, 0, 25, "u-1", 0, 0⟩]
    (by rfl)

/-- C9: `Task.update` never changes a row's `id`, `user_id` (owner) or
`created_at` in the store, whatever the payload contains — the SQL `SET` list
omits those columns, even though `Object.assign` may overwrite them on the
in-memory instance. -/
theorem update_preserves_identity (id : String) (ud : UpdateData) (now : Int)
    (store store' : List TaskRecord)
    (h : update id ud now store = Except.ok store') :
    store'.map (fun r => (r.id, r.user_id, r.created_at)) =
      store.map (fun r => (r.id, r.user_id, r.created_at)) := by
  unfold update at h
  cases hf : store.find? (fun r => r.id == id) with
  | none =>
      rw [hf] at h
      cases h
  | some t =>
      rw [hf] at h
      cases h
      rw [List.map_map]
      apply List.map_congr_left
      intro a ha
      simp only [Function.comp_apply]
      by_cases hai : (a.id == id) = true
      · rw [if_pos hai]
      · rw [if_neg hai]

/-- Witness for C9: an update payload that tries to overwrite id, owner and
created_at leaves all three untouched in the store. -/
theorem update_preserves_identity_witness :
    ([⟨"id-1", "t", none, "TODO", "MEDIUM", false, none, 0, 25, "u-1", 0, 5⟩]
        : List TaskRecord).map (fun r => (r.id, r.user_id, r.created_at)) =
      ([⟨"id-1", "t", none, "TODO", "MEDIUM", false, none, 0, 25, "u-1", 0, 0⟩]
        : List TaskRecord).map (fun r => (r.id, r.user_id, r.created_at)) :=
  update_preserves_identity "id-1"
    { id := some "evil-id", user_id := some "evil", created_at := some 999 } 5
    [⟨"id-1", "t", none, "TODO", "MEDIUM", false, none, 0, 25, "u-1", 0, 0⟩]
    [⟨"id-1", "t", none, "TODO", "MEDIUM", false, none, 0, 25, "u-1", 0, 5⟩]
    (by rfl)

/-- C10: `Task.update` recomputes and stores both derived fields from the
merged record and the clock at update time on every call: (1) caller-supplied
`completion_percentage` / `priority_score` in the payload never change the
outcome — they are discarded in favor of the recomputed values; (2) every
updated row's stored derived fields equal the recomputation at the update's
clock; (3) concretely, for a task with a due date, two updates that change
only the title, performed at sufficiently different times, store different
`priority_score` values. -/
theorem update_recomputes_derived :
    (∀ (id : String) (ud : UpdateData) (x y now : Int) (store : List TaskRecord),
      update id
          { ud with completion_percentage := some x, priority_score := some y } now store =
        update id ud now store) ∧
    (∀ (id : String) (ud : UpdateData) (now : Int) (store store' : List TaskRecord),
      update id ud now store = Except.ok store' →
      ∀ r ∈ store', r.id = id →
        r.completion_percentage = calculateCompletionPercentage r.status ∧
        r.priority_score = calculatePriorityScore r.priority r.is_urgent r.due_date now) ∧
    (∃ (r : TaskRecord) (ud : UpdateData) (t1 t2 : Int) (s1 s2 : List TaskRecord),
      ud.status = none ∧ ud.priority = none ∧ ud.is_urgent = none ∧ ud.due_date = none ∧
      ud.title = some "retitled" ∧
      update r.id ud t1 [r] = Except.ok s1 ∧
      update r.id ud t2 [r] = Except.ok s2 ∧
      s1.map TaskRecord.priority_score ≠ s2.map TaskRecord.priority_score) := by
  refine ⟨?_, ?_, ?_⟩
  · intro id ud x y now store
    unfold update
    cases hf : store.find? (fun r => r.id == id) with
    | none => rfl
    | some t => rfl
  · intro id ud now store store' h r hr hid
    unfold update at h
    cases hf : store.find? (fun r => r.id == id) with
    | none =>
        rw [hf] at h
        cases h
    | some t =>
        rw [hf] at h
        cases h
        obtain ⟨a, ha, rfl⟩ := List.mem_map.mp hr
        by_cases hai : (a.id == id) = true
        · rw [if_pos hai]
          exact ⟨rfl, rfl⟩
        · rw [if_neg hai] at hid
          exact absurd hid (by simpa using hai)
  · refine ⟨⟨"t-1", "old", none, "TODO", "MEDIUM", false, some 0, 0, 60, "u-1", 0, 0⟩,
      { title := some "retitled" }, 0, 864000000,
      [⟨"t-1", "retitled", none, "TODO", "MEDIUM", false, some 0, 0, 60, "u-1", 0, 0⟩],
      [⟨"t-1", "retitled", none, "TODO", "MEDIUM", false, some 0, 0, 65, "u-1", 0, 864000000⟩],
      rfl, rfl, rfl, rfl, rfl, by rfl, by rfl, by decide⟩

/-- Witness for C10: applying the recomputation part at a concrete title-only
update: the stored row's derived fields equal the recomputations at the
update's clock. -/
theorem update_recomputes_derived_witness :
    (⟨"t-1", "retitled", none, "TODO", "MEDIUM", false, some 0, 0, 60, "u-1", 0, 0⟩
        : TaskRecord).completion_percentage =
      calculateCompletionPercentage
        (⟨"t-1", "retitled", none, "TODO", "MEDIUM", false, some 0, 0, 60, "u-1", 0, 0⟩
          : TaskRecord).status ∧
    (⟨"t-1", "retitled", none, "TODO", "MEDIUM", false, some 0, 0, 60, "u-1", 0, 0⟩
        : TaskRecord).priority_score =
      calculatePriorityScore "MEDIUM" false (some 0) 0 :=
  update_recomputes_derived.2.1 "t-1" { title := some "retitled" } 0
    [⟨"t-1", "old", none, "TODO", "MEDIUM", false, some 0, 0, 60, "u-1", 0, 0⟩]
    [⟨"t-1", "retitled", none, "TODO", "MEDIUM", false, some 0, 0, 60, "u-1", 0, 0⟩]
    (by rfl)
    ⟨"t-1", "retitled", none, "TODO", "MEDIUM", false, some 0, 0, 60, "u-1", 0, 0⟩
    (by decide) rfl

/-! ## Statistics (`Task.getStatistics`) -/

/-- `Math.round(a / t)` for an integer numerator and count `t` (`t > 0` at
every use site): floor of `(2a + t) / (2t)`, i.e. round-half-up, matching
JavaScript's `Math.round`. -/
def jsRoundDiv (a : Int) (t : Nat) : Int :=
  Int.fdiv (2 * a + t) (2 * t)

/-- The statistics object returned by `Task.getStatistics`. -/
structure TaskStatistics where
  total_tasks : Nat
  completed_tasks : Nat
  in_progress_tasks : Nat
  pending_tasks : Nat
  urgent_tasks : Nat
  avg_completion : Int
  avg_priority_score : Int
  completion_rate : Int
deriving DecidableEq, Repr

/-- `Task.getStatistics`: the aggregate `SELECT ... WHERE user_id = ?` over
the store — `COUNT(*)`, per-status `SUM(CASE ...)` counts, urgent count,
rounded `AVG`s (`NULL`, i.e. an empty set, falls back to 0 through `|| 0`),
and `completion_rate` guarded by `total_tasks > 0` against division by
zero. -/
def getStatistics (user_id : String) (store : List TaskRecord) : TaskStatistics :=
  let rows := store.filter (fun r => r.user_id == user_id)
  let total := rows.length
  let completed := (rows.filter (fun r => r.status == "COMPLETED")).length
  let in_progress := (rows.filter (fun r => r.status == "IN_PROGRESS")).length
  let pending := (rows.filter (fun r => r.status == "TODO")).length
  let urgent := (rows.filter (fun r => r.is_urgent)).length
  { total_tasks := total,
    completed_tasks := completed,
    in_progress_tasks := in_progress,
    pending_tasks := pending,
    urgent_tasks := urgent,
    avg_completion := if total = 0 then 0
      else jsRoundDiv ((rows.map (fun r => r.completion_percentage)).sum) total,
    avg_priority_score := if total = 0 then 0
      else jsRoundDiv ((rows.map (fun r => r.priority_score)).sum) total,
    completion_rate := if 0 < total
      then jsRoundDiv (100 * completed) total
      else 0 }

/-- The integer round-half-up division agrees with the real rounding
`⌊a / t + 1/2⌋` whenever the count is positive. -/
theorem jsRoundDiv_eq_floor (a : Int) (t : Nat) (ht : 0 < t) :
    jsRoundDiv a t = ⌊(a : ℚ) / (t : ℚ) + 1 / 2⌋ := by
  have h1 : ((a : ℚ) / (t : ℚ) + 1 / 2) =
      ((2 * a + (t : Int) : Int) : ℚ) / (((2 * t : Nat) : ℕ) : ℚ) := by
    push_cast
    have ht' : (t : ℚ) ≠ 0 := by positivity
    field_simp
    ring
  rw [h1, Rat.floor_intCast_div_natCast]
  rw [jsRoundDiv, Int.fdiv_eq_ediv]
  · norm_num
  · positivity

/-- A concrete store of four tasks of one owner, two of them COMPLETED,
used by the statistics claim. -/
def sampleTasks : List TaskRecord :=
  [⟨"t-1", "a", none, "COMPLETED", "HIGH", true, none, 100, 60, "u-1", 0, 0⟩,
   ⟨"t-2", "b", none, "COMPLETED", "LOW", false, none, 100, 10, "u-1", 0, 0⟩,
   ⟨"t-3", "c", none, "TODO", "MEDIUM", false, none, 0, 25, "u-1", 0, 0⟩,
   ⟨"t-4", "d", none, "IN_PROGRESS", "MEDIUM", false, none, 50, 25, "u-1", 0, 0⟩]

/-- C6: `Task.getStatistics` never fails and its completion rate is
`round(100 × completed / total)` (round-half-up over the exact ratio) when
the owner has at least one task and 0 when the owner has none — in
particular on an empty store every statistic is 0 with no division-by-zero
failure, and on 4 tasks of which 2 are COMPLETED the completion rate is
50. -/
theorem getStatistics_completion_rate (uid : String) (store : List TaskRecord) :
    ((getStatistics uid store).total_tasks = 0 →
      (getStatistics uid store).completion_rate = 0) ∧
    (0 < (getStatistics uid store).total_tasks →
      (getStatistics uid store).completion_rate =
        ⌊100 * ((getStatistics uid store).completed_tasks : ℚ) /
            ((getStatistics uid store).total_tasks : ℚ) + 1 / 2⌋) ∧
    getStatistics uid ([] : List TaskRecord) = ⟨0, 0, 0, 0, 0, 0, 0, 0⟩ ∧
    (getStatistics "u-1" sampleTasks).total_tasks = 4 ∧
    (getStatistics "u-1" sampleTasks).completion_rate = 50 := by
  refine ⟨?_, ?_, by rfl, by decide, by decide⟩
  · intro h
    simp only [getStatistics] at h ⊢
    rw [if_neg (by omega)]
  · intro h
    simp only [getStatistics] at h ⊢
    rw [if_pos h]
    rw [jsRoundDiv_eq_floor _ _ h]
    congr 1
    push_cast
    ring

/-- Witness for C6: applying the positive-total case to the concrete 4-task
store discharges the hypothesis and evaluates the rate. -/
theorem getStatistics_completion_rate_witness :
    (getStatistics "u-1" sampleTasks).completion_rate =
      ⌊100 * ((getStatistics "u-1" sampleTasks).completed_tasks : ℚ) /
          ((getStatistics "u-1" sampleTasks).total_tasks : ℚ) + 1 / 2⌋ :=
  (getStatistics_completion_rate "u-1" sampleTasks).2.1 (by decide)
